import Mathlib

set_option maxRecDepth 40000

/-!
Formal model of the signal-processing and alignment pipeline of the
fitonduty march dashboard (src/processing/filters.py,
src/processing/step_processor.py, src/processing/watch_processor.py,
src/processing/data_merger.py).

Machine floats are modelled by exact rationals.  Numerical subroutines with
no exact discrete meaning (the Butterworth filter application via
sosfiltfilt, the FFT spectral estimate, the Haversine distance) are passed
in as explicit function parameters; every branch, threshold and list
manipulation of the Python code is embedded directly.  Python exceptions
are modelled with Except, pandas missing values (NaN) with Option, and
DataFrames with lists of rows.
-/

/-! ### Filter bank (src/processing/filters.py) -/

/-- True exactly when a Python call returned normally rather than raising. -/
def isOkResult (r : Except String (List ℚ)) : Bool :=
  match r with
  | .ok _ => true
  | .error _ => false

/-- Embedding of the private parameter-validation helper used by every
Butterworth filter entry point.  The checks fire in the source order:
signal length at least 2, signal length above the scipy minimum
6 times order plus 1, positive sampling rate, order at least 1,
positive cutoff, cutoff below Nyquist, cutoff at most 0.95 times Nyquist.
The warning print between the length and sampling-rate checks has no
semantic effect and is omitted. -/
def _validate_filter_params (signal : List ℚ) (cutoff fs : ℚ) (order : ℤ) :
    Except String (List ℚ) :=
  if signal.length < 2 then
    .error "Signal too short for filtering: minimum 2 samples required."
  else if (signal.length : ℤ) ≤ 6 * order + 1 then
    .error "Signal too short for this filter order."
  else if fs ≤ 0 then
    .error "Sampling frequency must be positive."
  else if order < 1 then
    .error "Filter order must be at least 1."
  else if cutoff ≤ 0 then
    .error "Cutoff frequency must be positive."
  else if 0.5 * fs ≤ cutoff then
    .error "Cutoff frequency must be less than the Nyquist frequency."
  else if 0.95 * (0.5 * fs) < cutoff then
    .error "Cutoff frequency is too close to the Nyquist frequency."
  else
    .ok signal

/-- Embedding of the band-pass parameter validation: the common validation
on the low cutoff, then the extra high-cutoff checks in source order. -/
def _validate_bandpass_params (signal : List ℚ) (lowcut highcut fs : ℚ) (order : ℤ) :
    Except String (List ℚ) :=
  match _validate_filter_params signal lowcut fs order with
  | .error e => .error e
  | .ok s =>
    if highcut ≤ 0 then
      .error "High cutoff frequency must be positive."
    else if highcut ≤ lowcut then
      .error "Low cutoff frequency must be less than high cutoff frequency."
    else if 0.5 * fs ≤ highcut then
      .error "High cutoff frequency must be less than the Nyquist frequency."
    else if 0.95 * (0.5 * fs) < highcut then
      .error "High cutoff frequency is too close to the Nyquist frequency."
    else
      .ok s

/-- Butterworth high-pass filter entry point.  The actual numerical filter
(butter followed by sosfiltfilt, floating point) is abstracted by the
sosApply parameter; the validation logic is embedded exactly. -/
def highpass_filter (sosApply : List ℚ → List ℚ) (s : List ℚ) (lowcut fs : ℚ)
    (order : ℤ) : Except String (List ℚ) :=
  match _validate_filter_params s lowcut fs order with
  | .error e => .error e
  | .ok signal => .ok (sosApply signal)

/-- Butterworth low-pass filter entry point, same structure as the
high-pass one. -/
def lowpass_filter (sosApply : List ℚ → List ℚ) (s : List ℚ) (highcut fs : ℚ)
    (order : ℤ) : Except String (List ℚ) :=
  match _validate_filter_params s highcut fs order with
  | .error e => .error e
  | .ok signal => .ok (sosApply signal)

/-- Butterworth band-pass filter entry point. -/
def bandpass_filter (sosApply : List ℚ → List ℚ) (s : List ℚ) (lowcut highcut fs : ℚ)
    (order : ℤ) : Except String (List ℚ) :=
  match _validate_bandpass_params s lowcut highcut fs order with
  | .error e => .error e
  | .ok signal => .ok (sosApply signal)

/-! ### Window cadence estimation and batch step processing
(src/processing/step_processor.py)

A magnitude sample is one row of the magnitude DataFrame produced by
get_magnitudes: a timestamp (modelled in whole seconds, matching the
wall-clock grouping granularity of pd.Grouper) and the high-pass-filtered
magnitude value. -/

structure MagSample where
  time : ℤ
  magnitude : ℚ
deriving DecidableEq, Repr

/-- Boolean time comparison used for sorting samples, as sort_index does. -/
def sampleTimeLe (a b : MagSample) : Bool := decide (a.time ≤ b.time)

/-- The wall-clock bucket a timestamp falls into for a given interval size,
mirroring the epoch-aligned buckets of pd.Grouper with a frequency of
interval_size seconds (floor division of the timestamp). -/
def bucketOf (interval_size : ℤ) (t : ℤ) : ℤ := Int.ediv t interval_size

/-- Embedding of get_steps: sort the magnitude samples by time, group them
into wall-clock buckets of interval_size seconds spanning the range from the
first to the last sample, and for each bucket emit the bucket id together
with 0 steps per second when the bucket has fewer than 3 times 52 samples,
or the window estimate otherwise.  The per-window estimator
(fft_and_processing applied to the group) is the est parameter; the sample
column of the output is irrelevant to every downstream consumer modelled
here and is omitted. -/
def get_steps (est : List MagSample → ℚ) (interval_size : ℤ)
    (samples : List MagSample) : List (ℤ × ℚ) :=
  let min_samples := 3 * 52
  let ss := samples.mergeSort sampleTimeLe
  match ss.head?, ss.getLast? with
  | some first, some last =>
    let b0 := bucketOf interval_size first.time
    let b1 := bucketOf interval_size last.time
    (List.range ((b1 - b0).toNat + 1)).map (fun (k : ℕ) =>
      let b := b0 + (k : ℤ)
      let group := ss.filter (fun s => bucketOf interval_size s.time == b)
      (b, if group.length < min_samples then 0 else est group))
  | _, _ => []

/-- Python int() applied to a float: truncation toward zero. -/
def pyInt (q : ℚ) : ℤ := if q < 0 then ⌈q⌉ else ⌊q⌋

/-- The summary record built by get_step_count_and_distribution: total steps
and the per-activity second and minute tallies together with the reported
interval size. -/
structure StepSummary where
  steps : ℤ
  walking : ℤ
  walking_fast : ℤ
  jogging : ℤ
  running : ℤ
  walking_minutes : ℚ
  walking_fast_minutes : ℚ
  jogging_minutes : ℚ
  running_minutes : ℚ
  interval_size : ℤ
deriving DecidableEq, Repr

/-- Embedding of the summary stage of get_step_count_and_distribution
(lines 682 to 709 of step_processor.py): total steps is the truncated
product of the sps sum with the interval size; the activity bands are the
inclusive ranges 1 to 1.8 (walking), 1.81 to 2.4 (fast walking), 2.41 to
2.9 (jogging) and strictly above 2.9 (running); seconds are window counts
times the interval size, minutes are seconds divided by 60. -/
def step_summary (sps : List ℚ) (interval_size : ℤ) : StepSummary :=
  let total := pyInt (sps.sum * interval_size)
  let slow_walking := (sps.filter (fun v => decide (1 ≤ v) && decide (v ≤ 1.8))).length
  let fast_walking := (sps.filter (fun v => decide (1.81 ≤ v) && decide (v ≤ 2.4))).length
  let jogging := (sps.filter (fun v => decide (2.41 ≤ v) && decide (v ≤ 2.9))).length
  let running := (sps.filter (fun v => decide (2.9 < v))).length
  let slow_walking_seconds : ℤ := slow_walking * interval_size
  let fast_walking_seconds : ℤ := fast_walking * interval_size
  let jogging_seconds : ℤ := jogging * interval_size
  let running_seconds : ℤ := running * interval_size
  ⟨total, slow_walking_seconds, fast_walking_seconds, jogging_seconds, running_seconds,
    (slow_walking_seconds : ℚ) / 60, (fast_walking_seconds : ℚ) / 60,
    (jogging_seconds : ℚ) / 60, (running_seconds : ℚ) / 60, interval_size⟩

/-- Embedding of calculate_steps: magnitude extraction failure is modelled
by an empty magnitude list (get_magnitudes returns an empty DataFrame when
high-pass filtering fails), in which case an empty step frame is returned;
otherwise the windowed estimate runs.  The returned pair carries the
interval size actually used, exactly as the Python function returns it. -/
def calculate_steps (est : List MagSample → ℚ) (mags : List MagSample)
    (interval_size : ℤ) : List (ℤ × ℚ) × ℤ :=
  if mags.isEmpty then ([], interval_size)
  else (get_steps est interval_size mags, interval_size)

/-- Embedding of get_step_count_and_distribution.  Note the call site on
line 677 of step_processor.py invokes calculate_steps WITHOUT forwarding
interval_size, so the default of 8 seconds is always used and the local
interval_size is rebound to the returned value; the interval_size argument
of this function is therefore dead.  An empty step frame yields an empty
result (modelled as none). -/
def get_step_count_and_distribution (est : List MagSample → ℚ)
    (mags : List MagSample) (interval_size : ℤ) : Option StepSummary :=
  let p := calculate_steps est mags 8
  if p.1.isEmpty then none
  else some (step_summary (p.1.map Prod.snd) p.2)

/-- A synthetic accelerometer trace of n full windows: every 8-second bucket
b below n holds exactly 3 times 52 samples stamped at second 8 b. -/
def uniformTrace (n : ℕ) : List MagSample :=
  (List.range n).flatMap (fun b => List.replicate (3 * 52) ⟨8 * (b : ℤ), 100⟩)

/-! ### Cycle counter (find_peaks_and_minimas_np, step_processor.py lines
265 to 344) and its scipy helpers. -/

/-- Array access with the numpy out-of-range positions never exercised by
the source mapped to 0. -/
def nthD (xs : List ℚ) (i : ℕ) : ℚ := xs.getD i 0

/-- Tail helper for argminIdx: running best index, best value and next
index. -/
def argminGo : List ℚ → ℕ → ℕ → ℚ → ℕ
  | [], _, bi, _ => bi
  | y :: ys, i, bi, bv => if y < bv then argminGo ys (i + 1) i y else argminGo ys (i + 1) bi bv

/-- Index of the first minimum of a list, as np.argmin returns it
(0 on the empty input, which numpy treats as an error but the source never
triggers). -/
def argminIdx : List ℚ → ℕ
  | [] => 0
  | x :: xs => argminGo xs 1 0 x

/-- Tail helper for argmaxIdx. -/
def argmaxGo : List ℚ → ℕ → ℕ → ℚ → ℕ
  | [], _, bi, _ => bi
  | y :: ys, i, bi, bv => if bv < y then argmaxGo ys (i + 1) i y else argmaxGo ys (i + 1) bi bv

/-- Index of the first maximum of a list, as np.argmax returns it. -/
def argmaxIdx : List ℚ → ℕ
  | [] => 0
  | x :: xs => argmaxGo xs 1 0 x

/-- Pass 1 of the cycle counter: the block-minimum candidates.
For i in range(0, len(mag) - 10, 5) take argmin(mag[i : i + 5]) + i; the
iteration count of that Python range is ceil((len - 10) / 5), which for
natural subtraction is (len - 10 + 4) / 5. -/
def blockMinIndices (mag : List ℚ) : List ℕ :=
  (List.range ((mag.length - 10 + 4) / 5)).map (fun k =>
    argminIdx ((mag.drop (5 * k)).take 5) + 5 * k)

/-- The plateau scan of scipy _local_maxima_1d: advance i_ahead while it is
below i_max and the value equals the plateau value v.  Fuel starts at
i_max - i_ahead so exhaustion coincides exactly with reaching i_max. -/
def plateauSteps (x : List ℚ) (v : ℚ) : ℕ → ℕ → ℕ
  | ia, 0 => ia
  | ia, fuel + 1 => if nthD x ia = v then plateauSteps x v (ia + 1) fuel else ia

/-- The main scan of scipy _local_maxima_1d over positions 1 to i_max - 1:
a strictly rising edge followed by a plateau and a strictly falling edge
records the plateau midpoint; scanning resumes after the plateau.  Fuel
bounds the iteration count; scipyLocalMaxima supplies enough fuel for the
scan to terminate only via i reaching i_max. -/
def lmScan (x : List ℚ) (imax : ℕ) : ℕ → ℕ → List ℕ
  | _, 0 => []
  | i, fuel + 1 =>
    if i < imax then
      if nthD x (i - 1) < nthD x i then
        let ia := plateauSteps x (nthD x i) (i + 1) (imax - (i + 1))
        if nthD x ia < nthD x i then
          (i + (ia - 1)) / 2 :: lmScan x imax (ia + 1) fuel
        else lmScan x imax (i + 1) fuel
      else lmScan x imax (i + 1) fuel
    else []

/-- All local maxima of a sequence in the sense of scipy find_peaks
(plateau midpoints, endpoints excluded). -/
def scipyLocalMaxima (x : List ℚ) : List ℕ :=
  lmScan x (x.length - 1) 1 x.length

/-- scipy find_peaks with the height argument: local maxima whose value is
at least the given minimum height. -/
def scipy_find_peaks_height (x : List ℚ) (hmin : ℚ) : List ℕ :=
  (scipyLocalMaxima x).filter (fun i => decide (hmin ≤ nthD x i))

/-- Pass 2 of the cycle counter (line 289 of step_processor.py):
find_peaks(-argmins_mag, height=100), i.e. the negated peak search over the
block-minimum candidate values with MINIMUM HEIGHT 100. -/
def pass2minima (argmins_mag : List ℚ) : List ℕ :=
  scipy_find_peaks_height (argmins_mag.map (fun v => -v)) 100

/-- np.roll(xs, -1): rotate one position to the left. -/
def npRollNeg1 (xs : List ℚ) : List ℚ := xs.drop 1 ++ xs.take 1

/-- The comparison ratio greater than 0.5 under numpy float division
semantics: division by zero yields plus infinity for a positive numerator
(compares true), minus infinity for a negative one and NaN for zero
(both compare false). -/
def np_ratio_gt_half (d dnext : ℚ) : Bool :=
  if dnext = 0 then decide (0 < d) else decide (1/2 < d / dnext)

/-- np.median: mean of the two central elements of the sorted list for even
lengths, the central element for odd lengths.  The empty case yields NaN in
numpy, which every subsequent comparison treats as false; it is mapped to 0
here, which is only ever compared against elements of an empty list. -/
def npMedian (xs : List ℚ) : ℚ :=
  let s := xs.mergeSort (fun a b => decide (a ≤ b))
  if s.length = 0 then 0
  else if s.length % 2 = 1 then nthD s (s.length / 2)
  else (nthD s (s.length / 2 - 1) + nthD s (s.length / 2)) / 2

/-- Embedding of find_peaks_and_minimas_np: the five-pass heuristic cycle
counter.  Pass 1 block minima; pass 2 negated height-100 peak search; pass 3
maxima between surviving minima; pass 4 drop peaks with magnitude at most
100; pass 5 minima between surviving peaks, consecutive-drop ratio filter,
peak-to-minimum distance filter, median-amplitude filter over the shifted
pairs.  Rows carry (minimum index, minimum magnitude, peak index, peak
magnitude) exactly like the 4-column numpy array of the source. -/
def find_peaks_and_minimas_np (mag : List ℚ) : List ℕ × List ℕ :=
  let argmins := blockMinIndices mag
  let argmins_mag := argmins.map (nthD mag)
  let minima := pass2minima argmins_mag
  let minima_indices := minima.map (fun j => argmins.getD j 0)
  let peaks_indices := (List.range (minima_indices.length - 1)).map (fun i =>
    let a := minima_indices.getD i 0
    let b := minima_indices.getD (i + 1) 0
    argmaxIdx ((mag.drop a).take (b - a)) + a)
  let peaks_magnitudes := peaks_indices.map (nthD mag)
  let kept := (peaks_indices.zip peaks_magnitudes).filter (fun pm => decide (100 < pm.2))
  let peaks_indices2 := kept.map Prod.fst
  let peaks_magnitudes2 := kept.map Prod.snd
  let minima_indices2 := (List.range (peaks_indices2.length - 1)).map (fun i =>
    let a := peaks_indices2.getD i 0
    let b := peaks_indices2.getD (i + 1) 0
    argminIdx ((mag.drop a).take (b - a)) + a)
  let minima_magnitudes2 := minima_indices2.map (nthD mag)
  let diff := (peaks_magnitudes2.dropLast.zip minima_magnitudes2).map (fun z => z.1 - z.2)
  let rows := (minima_indices2.zip minima_magnitudes2).zip
    (peaks_indices2.dropLast.zip peaks_magnitudes2.dropLast)
  let arr1 := ((rows.zip (diff.zip (npRollNeg1 diff))).filter
    (fun z => np_ratio_gt_half z.2.1 z.2.2)).map Prod.fst
  let arr2 := arr1.filter (fun z => decide (((z.1.1 : ℤ)) - ((z.2.1 : ℤ)) < 40))
  let median_value := npMedian (arr2.map (fun z => z.2.2))
  let arr3 := (arr2.dropLast.zip (arr2.drop 1)).map (fun z => (z.1.1, z.2.2))
  let arr4 := arr3.filter (fun z => decide (median_value * (1/2) < z.2.2))
  (arr4.map (fun z => z.1.1), arr4.map (fun z => z.2.1))

/-- Modelled from the claim wording via scipy peak_prominences: the
prominence of a peak is its value minus the higher of the two base levels,
where each base is the minimum over the scan from the peak towards that
side up to the first strictly higher sample or the signal border. -/
def specProminence (x : List ℚ) (peak : ℕ) : ℚ :=
  let xp := nthD x peak
  let leftMin := (((x.take peak).reverse).takeWhile (fun v => decide (v ≤ xp))).foldl min xp
  let rightMin := ((x.drop (peak + 1)).takeWhile (fun v => decide (v ≤ xp))).foldl min xp
  xp - max leftMin rightMin

/-- Modelled from the claim wording: the block-minimum candidates that are
prominent local minima of the candidate sequence under a negated peak
search with the given minimum prominence, i.e.
find_peaks(-cand, prominence=p). -/
def specProminentMinima (cand : List ℚ) (p : ℚ) : List ℕ :=
  (scipyLocalMaxima (cand.map (fun v => -v))).filter (fun i =>
    decide (p ≤ specProminence (cand.map (fun v => -v)) i))

/-- A magnitude trace whose three block-minimum candidates are 200, 50 and
200: the middle candidate is a deep, highly prominent local minimum of the
candidate sequence, yet its value is well above -100. -/
def mag0 : List ℚ := List.replicate 5 200 ++ List.replicate 5 50 ++ List.replicate 11 200

/-! ### Window cadence estimation core (fft_and_processing,
step_processor.py lines 451 to 506). -/

/-- Embedding of fft_and_processing.  The spectral stage (_perform_fft
followed by _calculate_steps_amplitude_peaks_ptn, floating-point FFT) is
abstracted by the spectral parameter returning the triple of FFT steps per
second, corrected amplitude and peak-to-noise quotient; the Butterworth
low-pass at 10 Hz, order 2, applied to the window magnitude before cycle
counting is abstracted by lowpassApply.  The quality gate, the cycle-count
call and the harmonic-correction branch are embedded exactly. -/
def fft_and_processing (spectral : List ℚ → ℚ × ℚ × ℚ)
    (lowpassApply : List ℚ → List ℚ) (mag : List ℚ) (interval_seconds : ℤ) : ℚ :=
  let sps_fft := (spectral mag).1
  let amplitude_fft := (spectral mag).2.1
  let ptn := (spectral mag).2.2
  if 1.4 ≤ sps_fft ∧ sps_fft < 10 ∧ 100 < amplitude_fft ∧ ptn < 2 then
    let filtered_mag := lowpassApply mag
    let peaks := (find_peaks_and_minimas_np filtered_mag).2
    let sps_peaks := ((peaks.length : ℚ) + 1) / (interval_seconds : ℚ)
    if (|sps_fft / 2 - sps_peaks| ≤ 0.5 ∧ 1.4 ≤ sps_peaks ∧ 2.8 ≤ sps_fft) ∨
        5 ≤ sps_fft then
      sps_fft / 2
    else
      sps_fft
  else 0

/-! ### Batch step orchestrator: multi-file stitching
(AccelerometerStepProcessor.process_all_participants, step_processor.py
lines 898 to 937). -/

/-- One row of a per-file step frame: window start time and the estimated
steps per second for that window. -/
structure StepEntry where
  time : ℚ
  sps : ℚ
deriving DecidableEq, Repr

/-- Boolean time comparison for sort_values on the time column. -/
def entryTimeLe (a b : StepEntry) : Bool := decide (a.time ≤ b.time)

/-- Running partial sums, as pandas cumsum produces them. -/
def cumsumFrom (acc : ℚ) : List ℚ → List ℚ
  | [] => []
  | x :: xs => (acc + x) :: cumsumFrom (acc + x) xs

/-- The cumulative_steps column: cumulative sum of steps-per-second values
multiplied by the window size (lines 885 and 931 of step_processor.py). -/
def cumulative_steps (window_size : ℤ) (entries : List StepEntry) : List ℚ :=
  cumsumFrom 0 (entries.map (fun e => e.sps * (window_size : ℚ)))

/-- The merged multi-file timeline of one participant: all per-file step
frames concatenated and re-sorted by time (line 928 to 930), after which
cumulative_steps is recomputed over the merged sequence. -/
def combined_timeline (files : List (List StepEntry)) : List StepEntry :=
  files.flatten.mergeSort entryTimeLe

/-! ### GPS crossing locator (WatchDataProcessor.find_gps_crossing and
find_gps_crossing_times, watch_processor.py lines 165 to 257). -/

/-- One GPS track point. -/
structure GPSPoint where
  timestamp : ℚ
  latitude : ℚ
  longitude : ℚ
deriving DecidableEq, Repr

/-- The pair of crossing timestamps found for a participant. -/
structure CrossingTimes where
  start : Option ℚ
  endTime : Option ℚ
deriving DecidableEq, Repr

/-- Embedding of find_gps_crossing: the timestamp of the first track point
whose distance to the target is within tolerance, or none.  The Haversine
distance computation (floating-point trigonometry) is abstracted by the
dist parameter mapping a track point to its distance from the target in
meters. -/
def find_gps_crossing (dist : GPSPoint → ℚ) (gps_track : List GPSPoint)
    (tolerance_m : ℚ) : Option ℚ :=
  (gps_track.find? (fun p => decide (dist p ≤ tolerance_m))).map GPSPoint.timestamp

/-- Embedding of find_gps_crossing_times: optional start and end targets
(each given by its distance function when configured), with the end search
restricted to the points strictly after a found start crossing.  Returns
none when the track is empty, when no target is configured, or when neither
search succeeds, matching the Python control flow. -/
def find_gps_crossing_times (gps_track : List GPSPoint)
    (startDist : Option (GPSPoint → ℚ)) (endDist : Option (GPSPoint → ℚ))
    (tolerance_m : ℚ) : Option CrossingTimes :=
  if gps_track.isEmpty then none
  else if startDist.isNone && endDist.isNone then none
  else
    let s := startDist.bind (fun d => find_gps_crossing d gps_track tolerance_m)
    let search_track := match s with
      | some ts => gps_track.filter (fun p => decide (ts < p.timestamp))
      | none => gps_track
    let e := endDist.bind (fun d => find_gps_crossing d search_track tolerance_m)
    if s.isNone && e.isNone then none
    else some ⟨s, e⟩

/-- A three-point demo track: minute 0 far away, minute 5 near the start
banner, minute 45 near the finish banner (whose area the route also touches
at minute 5). -/
def demoTrack : List GPSPoint := [⟨0, 0, 0⟩, ⟨5, 1, 1⟩, ⟨45, 2, 2⟩]

/-- Demo distance to the start target in meters: 8 m at minute 5, otherwise
1000 m. -/
def demoStartD (p : GPSPoint) : ℚ := if p.timestamp = 5 then 8 else 1000

/-- Demo distance to the end target in meters: 9 m at minutes 5 and 45
(the route revisits the area), otherwise 1000 m. -/
def demoEndD (p : GPSPoint) : ℚ :=
  if p.timestamp = 5 ∨ p.timestamp = 45 then 9 else 1000

/-! ### Timeline merger (MarchDataMerger, data_merger.py).  Rows model the
per-participant watch and step DataFrames; missing values (NaN) are Option
none. -/

/-- One row of the watch timeseries for a participant: merge-key timestamp,
heart rate, cumulative distance in kilometers and the watch step counter. -/
structure WatchRow where
  time : ℚ
  heart_rate : Option ℚ
  cumulative_distance_km : Option ℚ
  steps : Option ℚ
deriving DecidableEq, Repr

/-- One row of the prepared step data (prepare_step_data): timestamp plus
the renamed accelerometer columns steps_acc and sps_acc. -/
structure StepRow where
  time : ℚ
  steps_acc : Option ℚ
  sps_acc : Option ℚ
deriving DecidableEq, Repr

/-- One row of the merged frame: the watch columns, the transient steps_acc
column and the steps_per_second column (sps_acc after its final rename).
A dropped steps_acc column is modelled by the value none. -/
structure MergedRow where
  time : ℚ
  heart_rate : Option ℚ
  cumulative_distance_km : Option ℚ
  steps : Option ℚ
  steps_acc : Option ℚ
  steps_per_second : Option ℚ
deriving DecidableEq, Repr

/-- A pandas notna-and-positive test on an optional value: NaN compares
false against 0, so this is exactly notna together with the positivity
comparison of the source. -/
def posOpt : Option ℚ → Bool
  | some v => decide (0 < v)
  | none => false

/-- The has_both mask of _estimate_steps_from_distance: distance and
accelerometer steps both present and both positive. -/
def hasBoth (r : MergedRow) : Bool :=
  r.cumulative_distance_km.isSome && r.steps_acc.isSome &&
    posOpt r.cumulative_distance_km && posOpt r.steps_acc

/-- The needs_estimation mask: distance present and positive while the
accelerometer step count is missing. -/
def needsEstimation (r : MergedRow) : Bool :=
  r.cumulative_distance_km.isSome && r.steps_acc.isNone &&
    posOpt r.cumulative_distance_km

/-- Maximum of a pandas series given as a list (the source only takes the
maximum of non-empty series). -/
def pandasMax : List ℚ → ℚ
  | [] => 0
  | x :: xs => xs.foldl max x

/-- The per-row estimation update: rows needing estimation receive
steps = distance in meters divided by the stride length; all other rows are
untouched. -/
def fillEstimate (avg_stride_length_m : ℚ) (r : MergedRow) : MergedRow :=
  if needsEstimation r then
    { r with steps := some (r.cumulative_distance_km.getD 0 * 1000 / avg_stride_length_m) }
  else r

/-- Embedding of MarchDataMerger._estimate_steps_from_distance
(data_merger.py lines 156 to 229): when some row has both distance and
steps present and positive, the stride length is the maximal distance in
meters divided by the maximal step count over those rows; estimation runs
only when that stride lies in the band 0.4 m to 1.5 m and fills exactly the
rows of the needs_estimation mask. -/
def _estimate_steps_from_distance (merged : List MergedRow) : List MergedRow :=
  let both := merged.filter hasBoth
  if both.isEmpty then merged
  else
    let max_distance_km := pandasMax (both.filterMap MergedRow.cumulative_distance_km)
    let max_steps := pandasMax (both.filterMap MergedRow.steps_acc)
    if 0 < max_distance_km ∧ 0 < max_steps then
      let avg_stride_length_m := max_distance_km * 1000 / max_steps
      if 0.4 ≤ avg_stride_length_m ∧ avg_stride_length_m ≤ 1.5 then
        merged.map (fillEstimate avg_stride_length_m)
      else merged
    else merged

/-- Modelled from the claim wording: the stride length computed over the
rows where distance and steps are merely PRESENT, with no positivity
requirement, as the written claim describes it. -/
def specStrideBothPresent (merged : List MergedRow) : ℚ :=
  let both := merged.filter (fun r =>
    r.cumulative_distance_km.isSome && r.steps_acc.isSome)
  pandasMax (both.filterMap MergedRow.cumulative_distance_km) * 1000 /
    pandasMax (both.filterMap MergedRow.steps_acc)

/-- The asof nearest-match of pd.merge_asof with a tolerance: among the
step rows within tolerance of the watch timestamp, the one with the
smallest absolute time distance (the earliest such row on a tie). -/
def asofNearest (steps : List StepRow) (t : ℚ) (tolerance : ℚ) : Option StepRow :=
  (steps.filter (fun s => decide (|s.time - t| ≤ tolerance))).foldl
    (fun acc s =>
      match acc with
      | none => some s
      | some b => if |s.time - t| < |b.time - t| then some s else acc)
    none

/-- Boolean time comparisons for the sort_values calls of the merger. -/
def watchTimeLe (a b : WatchRow) : Bool := decide (a.time ≤ b.time)

def stepTimeLe (a b : StepRow) : Bool := decide (a.time ≤ b.time)

/-- A watch row carried into the merged frame with no step match. -/
def watchToMerged (w : WatchRow) : MergedRow :=
  ⟨w.time, w.heart_rate, w.cumulative_distance_km, w.steps, none, none⟩

/-- One output row of merge_asof: the watch columns joined with the matched
step columns when a match exists. -/
def mergeRow (w : WatchRow) (m : Option StepRow) : MergedRow :=
  match m with
  | some s => ⟨w.time, w.heart_rate, w.cumulative_distance_km, w.steps, s.steps_acc, s.sps_acc⟩
  | none => watchToMerged w

/-- The steps_acc fillna step of merge_participant_data: the steps column
becomes the accelerometer count where present, the original watch value
otherwise. -/
def fillStepsFromAcc (r : MergedRow) : MergedRow :=
  { r with steps := match r.steps_acc with | some v => some v | none => r.steps }

/-- Dropping the transient steps_acc column at the end of the merge. -/
def dropAccColumn (r : MergedRow) : MergedRow := { r with steps_acc := none }

/-- Embedding of MarchDataMerger.merge_participant_data (data_merger.py
lines 231 to 308): an empty step side returns the watch rows unchanged;
otherwise both sides are sorted by the merge key, every watch row is asof
matched against the step rows within the tolerance, the steps column is
replaced by the accelerometer counts where present, stride-based estimation
runs, and the transient steps_acc column is dropped (sps_acc was renamed to
steps_per_second when the merged row was built). -/
def merge_participant_data (tolerance : ℚ) (watch_group : List WatchRow)
    (step_group : List StepRow) : List MergedRow :=
  if step_group.isEmpty then watch_group.map watchToMerged
  else
    let sortedW := watch_group.mergeSort watchTimeLe
    let sortedS := step_group.mergeSort stepTimeLe
    let merged := sortedW.map (fun w => mergeRow w (asofNearest sortedS w.time tolerance))
    let merged2 := merged.map fillStepsFromAcc
    let merged3 := _estimate_steps_from_distance merged2
    merged3.map dropAccColumn

/-- The watch channel of a merged row: every watch column except steps
(which the merge may overwrite with accelerometer data). -/
def watchChannel (r : MergedRow) : ℚ × Option ℚ × Option ℚ :=
  (r.time, r.heart_rate, r.cumulative_distance_km)

/-- The same projection on a watch row. -/
def watchChannelW (w : WatchRow) : ℚ × Option ℚ × Option ℚ :=
  (w.time, w.heart_rate, w.cumulative_distance_km)

/-- All four watch columns of a merged row, for the empty-step-side case in
which nothing at all may change. -/
def watchAll (r : MergedRow) : ℚ × Option ℚ × Option ℚ × Option ℚ :=
  (r.time, r.heart_rate, r.cumulative_distance_km, r.steps)

/-- The same four columns of a watch row. -/
def watchAllW (w : WatchRow) : ℚ × Option ℚ × Option ℚ × Option ℚ :=
  (w.time, w.heart_rate, w.cumulative_distance_km, w.steps)

/-- Demo merged rows for the C8 witness: one row with both distance and
steps (1 km, 1000 steps, stride 1 m), one row needing estimation. -/
def mw1 : MergedRow := ⟨0, none, some 1, none, some 1000, none⟩

def mw2 : MergedRow := ⟨1, none, some 0.5, none, none, none⟩

/-- Counterexample rows for C8: cr1 has distance and steps both PRESENT but
a zero step count, cr2 has both present and positive, cr3 needs
estimation. -/
def cr1 : MergedRow := ⟨0, none, some 1, none, some 0, none⟩

def cr2 : MergedRow := ⟨1, none, some 0.15, none, some 1000, none⟩

def cr3 : MergedRow := ⟨2, none, some 0.5, none, none, none⟩

/-- A ten-row demo watch timeline for the C2 witness. -/
def w10demo : List WatchRow :=
  (List.range 10).map (fun k =>
    ⟨(k : ℚ), some (60 + (k : ℚ)), some ((k : ℚ) / 10), some (10 * (k : ℚ))⟩)

/-! ### Theorems -/

theorem validate_filter_params_error
    (s : List ℚ) (cutoff fs : ℚ) (order : ℤ)
    (h : order < 1 ∨ fs ≤ 0 ∨ 0.95 * (0.5 * fs) < cutoff) :
    isOkResult (_validate_filter_params s cutoff fs order) = false := by
  unfold _validate_filter_params
  split_ifs with h1 h2 h3 h4 h5 h6 h7
  · rfl
  · rfl
  · rfl
  · rfl
  · rfl
  · rfl
  · rfl
  · exfalso
    rcases h with h | h | h
    · exact h4 h
    · exact h3 h
    · exact h7 h

theorem filter_isOk_eq_validate (sosApply : List ℚ → List ℚ) (s : List ℚ)
    (cutoff fs : ℚ) (order : ℤ) :
    isOkResult (highpass_filter sosApply s cutoff fs order) =
      isOkResult (_validate_filter_params s cutoff fs order) ∧
    isOkResult (lowpass_filter sosApply s cutoff fs order) =
      isOkResult (_validate_filter_params s cutoff fs order) := by
  unfold highpass_filter lowpass_filter
  constructor <;> (cases _validate_filter_params s cutoff fs order <;> rfl)

theorem bandpass_isOk_false_of_validate (sosApply : List ℚ → List ℚ) (s : List ℚ)
    (lowcut highcut fs : ℚ) (order : ℤ)
    (h : isOkResult (_validate_filter_params s lowcut fs order) = false) :
    isOkResult (bandpass_filter sosApply s lowcut highcut fs order) = false := by
  unfold bandpass_filter _validate_bandpass_params
  revert h
  cases _validate_filter_params s lowcut fs order with
  | error e => intro _; rfl
  | ok v => intro h; exact absurd h (by simp [isOkResult])

/-- Claim C5 (amended).  For every call to highpass_filter, lowpass_filter or
bandpass_filter with order below 1, or non-positive sampling rate, or cutoff
STRICTLY ABOVE 0.95 times the Nyquist frequency, the call raises ValueError
(modelled as an error result) and never returns a filtered signal.  The
amendment relative to the written claim: the code accepts a cutoff exactly
equal to 0.95 times Nyquist (the check on line 91 of filters.py is strict),
so the failing condition is cutoff strictly greater than 0.95 times Nyquist,
not greater-or-equal. -/
theorem filters_invalid_params_never_ok
    (sosApply : List ℚ → List ℚ) (s : List ℚ) (cutoff highcut fs : ℚ) (order : ℤ)
    (h : order < 1 ∨ fs ≤ 0 ∨ 0.95 * (0.5 * fs) < cutoff) :
    isOkResult (highpass_filter sosApply s cutoff fs order) = false ∧
    isOkResult (lowpass_filter sosApply s cutoff fs order) = false ∧
    isOkResult (bandpass_filter sosApply s cutoff highcut fs order) = false := by
  have hv := validate_filter_params_error s cutoff fs order h
  have he := filter_isOk_eq_validate sosApply s cutoff fs order
  exact ⟨he.1.trans hv, he.2.trans hv,
    bandpass_isOk_false_of_validate sosApply s cutoff highcut fs order hv⟩

/-- Witness for C5: a concrete invalid call (sampling rate 0) on a 100-sample
signal is rejected by all three filter entry points. -/
theorem filters_invalid_params_never_ok_witness :
    isOkResult (highpass_filter id (List.replicate 100 0) 5 0 5) = false ∧
    isOkResult (lowpass_filter id (List.replicate 100 0) 5 0 5) = false ∧
    isOkResult (bandpass_filter id (List.replicate 100 0) 5 6 0 5) = false :=
  filters_invalid_params_never_ok id (List.replicate 100 0) 5 6 0 5
    (Or.inr (Or.inl (by norm_num)))

/-- Counterexample for C5 as written.  The claim states that a call with
cutoff greater than or equal to 0.95 times Nyquist raises; but for
fs = 40 Hz (Nyquist 20 Hz) the boundary cutoff 19 Hz = 0.95 times Nyquist
passes validation and the high-pass filter returns a result, because the
closeness check in _validate_filter_params is strict. -/
theorem filters_boundary_cutoff_is_accepted :
    0.95 * (0.5 * (40 : ℚ)) ≤ 19 ∧
    isOkResult (highpass_filter id (List.replicate 100 0) 19 40 5) = true := by
  constructor
  · norm_num
  · exact of_decide_eq_true (by with_unfolding_all rfl)

/-- Claim C4.  Every time window holding fewer than 3 times 52 samples is
assigned a cadence of 0 steps per second, whatever the magnitude values in
the window and whatever the estimator would have returned. -/
theorem short_window_gives_zero_sps
    (est : List MagSample → ℚ) (interval_size : ℤ) (samples : List MagSample)
    (b : ℤ) (r : ℚ)
    (hmem : (b, r) ∈ get_steps est interval_size samples)
    (hshort : (samples.filter (fun s => bucketOf interval_size s.time == b)).length
      < 3 * 52) :
    r = 0 := by
  unfold get_steps at hmem
  rcases h1 : (samples.mergeSort sampleTimeLe).head? with _ | first
  · simp only [h1] at hmem
    rcases (samples.mergeSort sampleTimeLe).getLast? with _ | last
    · exact absurd hmem (List.not_mem_nil _)
    · exact absurd hmem (List.not_mem_nil _)
  · rcases h2 : (samples.mergeSort sampleTimeLe).getLast? with _ | last
    · simp only [h1, h2] at hmem
      exact absurd hmem (List.not_mem_nil _)
    · simp only [h1, h2, List.mem_map] at hmem
      obtain ⟨k, _, hk⟩ := hmem
      have hb : bucketOf interval_size first.time + (k : ℤ) = b :=
        congrArg Prod.fst hk
      have hr := congrArg Prod.snd hk
      simp only at hr
      rw [hb] at hr
      have hperm := (List.mergeSort_perm samples sampleTimeLe).filter
        (fun s => bucketOf interval_size s.time == b)
      rw [← hr, if_pos (by rw [hperm.length_eq]; exact hshort)]

/-- Witness for C4: a single sample in bucket 0 (far fewer than 156) yields
the row (0, 0) even though the estimator would report 5 steps per second. -/
theorem short_window_gives_zero_sps_witness :
    ((0 : ℤ), (0 : ℚ)) ∈ get_steps (fun _ => 5) 8 [⟨0, 7⟩] ∧
    (([⟨0, 7⟩] : List MagSample).filter
      (fun s => bucketOf 8 s.time == 0)).length < 3 * 52 ∧
    (0 : ℚ) = 0 :=
  ⟨of_decide_eq_true (by with_unfolding_all rfl),
   of_decide_eq_true (by with_unfolding_all rfl),
   short_window_gives_zero_sps (fun _ => 5) 8 [⟨0, 7⟩] 0 0
     (of_decide_eq_true (by with_unfolding_all rfl))
     (of_decide_eq_true (by with_unfolding_all rfl))⟩

/-- Claim C10.  The result of get_step_count_and_distribution does not
depend on its interval_size argument, and the interval size it reports is
always 8, because the internal call to calculate_steps omits the argument
and rebinds interval_size to the returned default. -/
theorem step_count_ignores_interval_argument
    (est : List MagSample → ℚ) (mags : List MagSample) (i j : ℤ) :
    get_step_count_and_distribution est mags i =
      get_step_count_and_distribution est mags j ∧
    (∀ r : StepSummary, get_step_count_and_distribution est mags i = some r →
      r.interval_size = 8) := by
  refine ⟨rfl, ?_⟩
  intro r h
  unfold get_step_count_and_distribution at h
  by_cases hz : (calculate_steps est mags 8).1.isEmpty
  · rw [if_pos hz] at h
    cases h
  · rw [if_neg hz] at h
    have hr := Option.some.inj h
    have h2 : (calculate_steps est mags 8).2 = 8 := by
      unfold calculate_steps
      by_cases hm : mags.isEmpty <;> simp [hm]
    rw [← hr]
    have h3 : (step_summary ((calculate_steps est mags 8).1.map Prod.snd)
        ((calculate_steps est mags 8).2)).interval_size =
        (calculate_steps est mags 8).2 := rfl
    rw [h3, h2]

/-- Witness for C10: on a one-sample trace the summaries for interval
arguments 5 and 3 coincide and report interval size 8. -/
theorem step_count_ignores_interval_argument_witness :
    get_step_count_and_distribution (fun _ => 0) [⟨0, 7⟩] 5 =
      get_step_count_and_distribution (fun _ => 0) [⟨0, 7⟩] 3 ∧
    ∀ r : StepSummary,
      get_step_count_and_distribution (fun _ => 0) [⟨0, 7⟩] 5 = some r →
        r.interval_size = 8 :=
  step_count_ignores_interval_argument (fun _ => 0) [⟨0, 7⟩] 5 3

theorem uniformTrace_succ (n : ℕ) :
    uniformTrace (n + 1) =
      uniformTrace n ++ List.replicate (3 * 52) ⟨8 * (n : ℤ), 100⟩ := by
  unfold uniformTrace
  rw [List.range_succ, List.flatMap_append]
  simp

theorem mem_uniformTrace {s : MagSample} {n : ℕ} (h : s ∈ uniformTrace n) :
    ∃ b : ℕ, b < n ∧ s = ⟨8 * (b : ℤ), 100⟩ := by
  induction n with
  | zero => exact absurd h (List.not_mem_nil s)
  | succ m ih =>
    rw [uniformTrace_succ, List.mem_append] at h
    rcases h with h | h
    · obtain ⟨b, hb, hs⟩ := ih h
      exact ⟨b, Nat.lt_succ_of_lt hb, hs⟩
    · exact ⟨m, Nat.lt_succ_self m, (List.eq_of_mem_replicate h)⟩

theorem uniformTrace_sorted (n : ℕ) :
    (uniformTrace n).Pairwise (fun a b => sampleTimeLe a b = true) := by
  induction n with
  | zero => exact List.Pairwise.nil
  | succ m ih =>
    rw [uniformTrace_succ, List.pairwise_append]
    refine ⟨ih, ?_, ?_⟩
    · rw [List.pairwise_replicate]
      right
      simp [sampleTimeLe]
    · intro a ha b hb
      obtain ⟨k, hk, hak⟩ := mem_uniformTrace ha
      have hbm := List.eq_of_mem_replicate hb
      rw [hak, hbm]
      simp only [sampleTimeLe, decide_eq_true_eq]
      omega

theorem uniformTrace_mergeSort (n : ℕ) :
    (uniformTrace n).mergeSort sampleTimeLe = uniformTrace n :=
  List.mergeSort_of_sorted (uniformTrace_sorted n)

theorem uniformTrace_head (n : ℕ) :
    (uniformTrace (n + 1)).head? = some ⟨0, 100⟩ := by
  unfold uniformTrace
  rw [List.range_succ_eq_map]
  simp

theorem uniformTrace_getLast (n : ℕ) :
    (uniformTrace (n + 1)).getLast? = some ⟨8 * (n : ℤ), 100⟩ := by
  rw [uniformTrace_succ, List.getLast?_append, List.getLast?_replicate]
  simp

theorem uniformTrace_filter (n : ℕ) (b : ℤ) :
    (uniformTrace n).filter (fun s => bucketOf 8 s.time == b) =
      if 0 ≤ b ∧ b < (n : ℤ) then List.replicate (3 * 52) ⟨8 * b, 100⟩ else [] := by
  induction n with
  | zero =>
    rw [if_neg (by omega)]
    rfl
  | succ m ih =>
    rw [uniformTrace_succ, List.filter_append, ih]
    have hbucket : bucketOf 8 ((8 : ℤ) * (m : ℤ)) = (m : ℤ) := by
      unfold bucketOf
      exact Int.mul_ediv_cancel_left (m : ℤ) (by norm_num)
    by_cases hbm : b = (m : ℤ)
    · rw [if_neg (by omega)]
      rw [List.filter_replicate_of_pos (by simp [hbucket, hbm])]
      rw [if_pos (by omega)]
      rw [hbm]
      simp
    · rw [List.filter_replicate_of_neg (by simp [hbucket]; omega)]
      by_cases hlt : 0 ≤ b ∧ b < (m : ℤ)
      · rw [if_pos hlt, if_pos (by omega)]
        simp
      · rw [if_neg hlt, if_neg (by omega)]
        simp

theorem get_steps_uniformTrace (est : List MagSample → ℚ) (n : ℕ) :
    get_steps est 8 (uniformTrace (n + 1)) =
      (List.range (n + 1)).map (fun (k : ℕ) =>
        ((k : ℤ), est (List.replicate (3 * 52) ⟨8 * (k : ℤ), 100⟩))) := by
  unfold get_steps
  rw [uniformTrace_mergeSort]
  dsimp only
  rw [uniformTrace_head, uniformTrace_getLast]
  have h0 : bucketOf 8 (0 : ℤ) = 0 := by decide
  have hbn : bucketOf 8 (8 * (n : ℤ)) = (n : ℤ) := by
    unfold bucketOf
    exact Int.mul_ediv_cancel_left (n : ℤ) (by norm_num)
  dsimp only
  rw [h0, hbn]
  have hcount : (((n : ℤ) - 0).toNat + 1) = n + 1 := by omega
  rw [hcount]
  apply List.map_congr_left
  intro k hk
  have hklt : k < n + 1 := List.mem_range.mp hk
  rw [uniformTrace_filter]
  have hc : ((0 : ℤ) ≤ 0 + (k : ℤ) ∧ 0 + (k : ℤ) < ((n + 1 : ℕ) : ℤ)) := by
    constructor <;> omega
  rw [if_pos hc, List.length_replicate]
  rw [if_neg (by omega)]
  simp

theorem calculate_steps_uniform100 :
    (calculate_steps (fun _ => (2 : ℚ)) (uniformTrace 100) 8).1.map Prod.snd =
      List.replicate 100 2 := by
  unfold calculate_steps
  have hne : (uniformTrace 100).isEmpty = false := by
    have hh := uniformTrace_head 99
    rcases hl : uniformTrace 100 with _ | ⟨a, l⟩
    · have h100 : uniformTrace (99 + 1) = [] := hl
      rw [h100] at hh
      exact absurd hh (by simp)
    · rfl
  rw [hne]
  simp only [Bool.false_eq_true, if_false]
  rw [show (100 : ℕ) = 99 + 1 from rfl, get_steps_uniformTrace]
  rw [List.map_map]
  have : (Prod.snd ∘ fun (k : ℕ) =>
      ((k : ℤ), (fun (_ : List MagSample) => (2 : ℚ)) (List.replicate (3 * 52) ⟨8 * (k : ℤ), 100⟩))) =
      fun _ => (2 : ℚ) := rfl
  rw [this, List.map_const', List.length_range]

theorem gscd_of_replicate100 (est : List MagSample → ℚ) (mags : List MagSample)
    (interval_size : ℤ)
    (h : (calculate_steps est mags 8).1.map Prod.snd = List.replicate 100 2) :
    get_step_count_and_distribution est mags interval_size =
      some (step_summary (List.replicate 100 2) 8) := by
  unfold get_step_count_and_distribution
  dsimp only
  have hne : (calculate_steps est mags 8).1.isEmpty = false := by
    rcases hl : (calculate_steps est mags 8).1 with _ | ⟨a, l⟩
    · rw [hl] at h
      have := congrArg List.length h
      simp at this
    · rfl
  have hp2 : (calculate_steps est mags 8).2 = 8 := by
    unfold calculate_steps
    by_cases hm : mags.isEmpty <;> simp [hm]
  rw [hne]
  simp only [Bool.false_eq_true, if_false]
  rw [hp2, h]

theorem step_summary_replicate100 :
    step_summary (List.replicate 100 2) 8 =
      ⟨1600, 0, 800, 0, 0, 0, 40/3, 0, 0, 8⟩ :=
  of_decide_eq_true (by with_unfolding_all rfl)

/-- Claim C1 (amended).  A synthetic trace whose 100 eight-second windows
are all accepted with 2.0 steps per second yields total_steps
2.0 times 8 times 100 = 1600, and every one of those windows is classified
as FAST WALKING (the 1.81 to 2.4 band), not jogging: the jogging tally is
zero.  The amendment relative to the written claim: 2.0 steps per second
falls in the fast-walking band of the code (jogging is 2.41 to 2.9), so the
100 percent share of active minutes belongs to fast walking. -/
theorem synthetic_trace_total_and_fast_walking
    (est : List MagSample → ℚ) (mags : List MagSample) (interval_size : ℤ)
    (h : (calculate_steps est mags 8).1.map Prod.snd = List.replicate 100 2) :
    get_step_count_and_distribution est mags interval_size =
      some ⟨1600, 0, 800, 0, 0, 0, 40/3, 0, 0, 8⟩ := by
  rw [gscd_of_replicate100 est mags interval_size h, step_summary_replicate100]

/-- Witness for C1: the concrete 100-window uniform trace with a constant
estimator of 2 steps per second satisfies the hypothesis and produces the
stated summary. -/
theorem synthetic_trace_total_and_fast_walking_witness :
    ((calculate_steps (fun _ => (2 : ℚ)) (uniformTrace 100) 8).1.map Prod.snd =
      List.replicate 100 2) ∧
    get_step_count_and_distribution (fun _ => (2 : ℚ)) (uniformTrace 100) 5 =
      some ⟨1600, 0, 800, 0, 0, 0, 40/3, 0, 0, 8⟩ :=
  ⟨calculate_steps_uniform100,
   synthetic_trace_total_and_fast_walking (fun _ => (2 : ℚ)) (uniformTrace 100) 5
     calculate_steps_uniform100⟩

/-- Counterexample for C1 as written.  On the 100-window synthetic trace at
2.0 steps per second the total is indeed 1600, but the jogging tally is 0
seconds while fast walking holds all 800 active seconds, contradicting the
claim that 100 percent of the active minutes are classified as jogging. -/
theorem synthetic_trace_zero_jogging :
    (get_step_count_and_distribution (fun _ => (2 : ℚ)) (uniformTrace 100) 8).map
      (fun r => (r.steps, r.jogging, r.walking_fast)) = some (1600, 0, 800) := by
  rw [gscd_of_replicate100 (fun _ => (2 : ℚ)) (uniformTrace 100) 8 calculate_steps_uniform100]
  rw [step_summary_replicate100]
  rfl

theorem plateauSteps_ge (x : List ℚ) (v : ℚ) :
    ∀ (fuel ia : ℕ), ia ≤ plateauSteps x v ia fuel := by
  intro fuel
  induction fuel with
  | zero => intro ia; exact Nat.le_refl ia
  | succ f ih =>
    intro ia
    unfold plateauSteps
    split
    · exact le_trans (Nat.le_succ ia) (ih (ia + 1))
    · exact Nat.le_refl ia

theorem plateauSteps_le (x : List ℚ) (v : ℚ) :
    ∀ (fuel ia : ℕ), plateauSteps x v ia fuel ≤ ia + fuel := by
  intro fuel
  induction fuel with
  | zero => intro ia; exact Nat.le_refl ia
  | succ f ih =>
    intro ia
    unfold plateauSteps
    split
    · exact le_trans (ih (ia + 1)) (by omega)
    · omega

theorem lmScan_mem_lt (x : List ℚ) (imax : ℕ) :
    ∀ (fuel i j : ℕ), j ∈ lmScan x imax i fuel → j < imax := by
  intro fuel
  induction fuel with
  | zero =>
    intro i j h
    exact absurd h (List.not_mem_nil j)
  | succ f ih =>
    intro i j h
    unfold lmScan at h
    by_cases h1 : i < imax
    · rw [if_pos h1] at h
      by_cases h2 : nthD x (i - 1) < nthD x i
      · rw [if_pos h2] at h
        dsimp only at h
        by_cases h3 :
            nthD x (plateauSteps x (nthD x i) (i + 1) (imax - (i + 1))) < nthD x i
        · rw [if_pos h3] at h
          rcases List.mem_cons.mp h with hj | hj
          · have hle : plateauSteps x (nthD x i) (i + 1) (imax - (i + 1)) ≤ imax := by
              have := plateauSteps_le x (nthD x i) (imax - (i + 1)) (i + 1)
              omega
            omega
          · exact ih _ j hj
        · rw [if_neg h3] at h
          exact ih _ j h
      · rw [if_neg h2] at h
        exact ih _ j h
    · rw [if_neg h1] at h
      exact absurd h (List.not_mem_nil j)

theorem mem_scipyLocalMaxima_lt (x : List ℚ) (i : ℕ) (h : i ∈ scipyLocalMaxima x) :
    i < x.length := by
  have := lmScan_mem_lt x (x.length - 1) x.length 1 i h
  omega

theorem nthD_map_neg (x : List ℚ) (i : ℕ) (h : i < x.length) :
    nthD (x.map (fun v => -v)) i = -(nthD x i) := by
  unfold nthD
  rw [List.getD_eq_getElem?_getD, List.getElem?_map, List.getD_eq_getElem?_getD,
    List.getElem?_eq_getElem h]
  rfl

/-- Claim C9 (amended).  In the second pass of the cycle counter a
block-minimum candidate survives exactly when it is a local minimum of the
candidate sequence (a scipy local maximum of the negated sequence, plateau
midpoint rule) whose candidate value is at most -100: the negated peak
search on line 289 of step_processor.py uses a MINIMUM HEIGHT of 100, not a
minimum prominence of 100 as the claim states. -/
theorem pass2_survivor_characterization (cand : List ℚ) (i : ℕ) :
    i ∈ pass2minima cand ↔
      i ∈ scipyLocalMaxima (cand.map (fun v => -v)) ∧
        i < cand.length ∧ nthD cand i ≤ -100 := by
  unfold pass2minima scipy_find_peaks_height
  rw [List.mem_filter]
  constructor
  · rintro ⟨hm, hv⟩
    have hlt : i < (cand.map (fun v => -v)).length := mem_scipyLocalMaxima_lt _ i hm
    rw [List.length_map] at hlt
    rw [decide_eq_true_eq, nthD_map_neg cand i hlt] at hv
    exact ⟨hm, hlt, by linarith⟩
  · rintro ⟨hm, hlt, hval⟩
    refine ⟨hm, ?_⟩
    rw [decide_eq_true_eq, nthD_map_neg cand i hlt]
    linarith

/-- Counterexample for C9 as written.  On mag0 the candidate sequence is
200, 50, 200; the middle candidate is a local minimum of prominence 150
(at least 100), so the claimed prominence-based pass would keep it; the
actual pass keeps nothing because the candidate value 50 is above -100
(negated height below 100). -/
theorem pass2_drops_prominent_minimum :
    (blockMinIndices mag0).map (nthD mag0) = [200, 50, 200] ∧
    pass2minima ((blockMinIndices mag0).map (nthD mag0)) = [] ∧
    specProminentMinima ((blockMinIndices mag0).map (nthD mag0)) 100 = [1] ∧
    specProminence (((blockMinIndices mag0).map (nthD mag0)).map (fun v => -v)) 1 = 150 :=
  ⟨of_decide_eq_true (by with_unfolding_all rfl),
   of_decide_eq_true (by with_unfolding_all rfl),
   of_decide_eq_true (by with_unfolding_all rfl),
   of_decide_eq_true (by with_unfolding_all rfl)⟩

/-- Claim C3.  For every window passing the spectral quality gate, the
returned steps-per-second value is the FFT frequency, halved exactly when
(the distance between half the FFT frequency and the peak-count rate is at
most 0.5 and the peak-count rate is at least 1.4 and the FFT frequency is
at least 2.8) or the FFT frequency is at least 5, where the peak-count rate
is (number of cycle-counter peaks plus 1) divided by the window length in
seconds. -/
theorem harmonic_correction_exact (spectral : List ℚ → ℚ × ℚ × ℚ)
    (lowpassApply : List ℚ → List ℚ) (mag : List ℚ) (interval_seconds : ℤ)
    (hgate : 1.4 ≤ (spectral mag).1 ∧ (spectral mag).1 < 10 ∧
      100 < (spectral mag).2.1 ∧ (spectral mag).2.2 < 2) :
    fft_and_processing spectral lowpassApply mag interval_seconds =
      (if (|(spectral mag).1 / 2 -
            (((find_peaks_and_minimas_np (lowpassApply mag)).2.length : ℚ) + 1) /
              (interval_seconds : ℚ)| ≤ 0.5 ∧
          1.4 ≤ (((find_peaks_and_minimas_np (lowpassApply mag)).2.length : ℚ) + 1) /
              (interval_seconds : ℚ) ∧
          2.8 ≤ (spectral mag).1) ∨ 5 ≤ (spectral mag).1 then
        (spectral mag).1 / 2
      else
        (spectral mag).1) := by
  unfold fft_and_processing
  rw [if_pos hgate]

/-- Witness for C3: a gate-passing spectral estimate of 6 steps per second
(amplitude 200, peak-to-noise 1) on a 160-sample flat window is halved to 3
because 6 is at least 5. -/
theorem harmonic_correction_exact_witness :
    fft_and_processing (fun _ => (6, 200, 1)) id (List.replicate 160 0) 8 = 3 := by
  rw [harmonic_correction_exact (fun _ => (6, 200, 1)) id (List.replicate 160 0) 8
    (by norm_num)]
  exact of_decide_eq_true (by with_unfolding_all rfl)

theorem cumsumFrom_chain (xs : List ℚ) (hx : ∀ x ∈ xs, 0 ≤ x) :
    ∀ acc : ℚ, List.Chain' (· ≤ ·) (acc :: cumsumFrom acc xs) := by
  induction xs with
  | nil =>
    intro acc
    exact List.chain'_singleton acc
  | cons x xs ih =>
    intro acc
    unfold cumsumFrom
    refine List.Chain'.cons ?_ (ih (fun y hy => hx y (List.mem_cons_of_mem x hy)) (acc + x))
    have : 0 ≤ x := hx x (List.mem_cons_self x xs)
    linarith

/-- Claim C6.  For a participant whose step timeline is stitched from any
number of files with non-negative per-window steps-per-second values, the
cumulative step count recomputed over the time-sorted merged sequence is
non-decreasing from the first window to the last. -/
theorem combined_cumulative_steps_monotone (window_size : ℤ)
    (files : List (List StepEntry)) (hw : 0 ≤ window_size)
    (hsps : ∀ f ∈ files, ∀ e ∈ f, 0 ≤ e.sps) :
    List.Chain' (· ≤ ·) (cumulative_steps window_size (combined_timeline files)) := by
  unfold cumulative_steps
  have hx : ∀ x ∈ (combined_timeline files).map (fun e => e.sps * (window_size : ℚ)),
      0 ≤ x := by
    intro x hxm
    rw [List.mem_map] at hxm
    obtain ⟨e, he, hex⟩ := hxm
    unfold combined_timeline at he
    rw [List.mem_mergeSort, List.mem_flatten] at he
    obtain ⟨f, hf, hef⟩ := he
    have h1 : 0 ≤ e.sps := hsps f hf e hef
    have h2 : (0 : ℚ) ≤ (window_size : ℚ) := by exact_mod_cast hw
    rw [← hex]
    exact mul_nonneg h1 h2
  exact (cumsumFrom_chain _ hx 0).tail

/-- Witness for C6: two concrete single-file frames merge into a timeline
whose recomputed cumulative count is non-decreasing. -/
theorem combined_cumulative_steps_monotone_witness :
    (0 : ℤ) ≤ 8 ∧
    List.Chain' (· ≤ ·) (cumulative_steps 8
      (combined_timeline [[⟨0, 2⟩, ⟨16, 1⟩], [⟨8, 3⟩]])) :=
  ⟨by norm_num,
   combined_cumulative_steps_monotone 8 [[⟨0, 2⟩, ⟨16, 1⟩], [⟨8, 3⟩]] (by norm_num)
     (by
      intro f hf e he
      fin_cases hf <;> fin_cases he <;> norm_num)⟩

/-- Claim C7.  The crossing search returns the timestamp of the first track
point within tolerance (none when no point is within tolerance), and a
found end crossing is always strictly later than the found start crossing
because the end search only examines points with strictly later
timestamps. -/
theorem gps_crossing_first_within_and_end_after_start
    (dist startDist endDist : GPSPoint → ℚ) (gps_track : List GPSPoint)
    (tolerance_m : ℚ) :
    (∀ t : ℚ, find_gps_crossing dist gps_track tolerance_m = some t ↔
      ∃ (p : GPSPoint) (pre post : List GPSPoint),
        gps_track = pre ++ p :: post ∧ p.timestamp = t ∧ dist p ≤ tolerance_m ∧
        ∀ q ∈ pre, tolerance_m < dist q) ∧
    (find_gps_crossing dist gps_track tolerance_m = none ↔
      ∀ p ∈ gps_track, tolerance_m < dist p) ∧
    (∀ (c : CrossingTimes) (ts te : ℚ),
      find_gps_crossing_times gps_track (some startDist) (some endDist) tolerance_m =
        some c →
      c.start = some ts → c.endTime = some te → ts < te) := by
  refine ⟨?_, ?_, ?_⟩
  · intro t
    unfold find_gps_crossing
    rw [Option.map_eq_some']
    constructor
    · rintro ⟨p, hfind, hts⟩
      have hchar := List.find?_eq_some.mp hfind
      obtain ⟨hp, pre, post, htrack, hpre⟩ := hchar
      refine ⟨p, pre, post, htrack, hts, by simpa using hp, ?_⟩
      intro q hq
      have := hpre q hq
      simp at this
      linarith
    · rintro ⟨p, pre, post, htrack, hts, hdist, hpre⟩
      refine ⟨p, ?_, hts⟩
      rw [List.find?_eq_some]
      refine ⟨by simpa using hdist, pre, post, htrack, ?_⟩
      intro q hq
      have := hpre q hq
      simp
      linarith
  · unfold find_gps_crossing
    rw [Option.map_eq_none']
    rw [List.find?_eq_none]
    constructor
    · intro hall p hp
      have := hall p hp
      simp at this
      linarith
    · intro hall p hp
      have := hall p hp
      simp
      linarith
  · intro c ts te hc hstart hend
    unfold find_gps_crossing_times at hc
    by_cases h1 : gps_track.isEmpty
    · rw [if_pos h1] at hc
      cases hc
    · rw [if_neg h1] at hc
      simp only [Option.isNone_some, Bool.and_self, Bool.false_eq_true, if_false,
        Option.some_bind] at hc
      split at hc
      · cases hc
      · have hcc := Option.some.inj hc
        rw [← hcc] at hstart hend
        dsimp only at hstart hend
        rw [hstart] at hend
        dsimp only at hend
        unfold find_gps_crossing at hend
        rw [Option.map_eq_some'] at hend
        obtain ⟨p, hfind, hts⟩ := hend
        have hmem := List.mem_of_find?_eq_some hfind
        rw [List.mem_filter] at hmem
        have := hmem.2
        simp at this
        rw [← hts]
        exact this

/-- Witness for C7: on the demo track with tolerance 50 m the start search
returns minute 5 and the end search returns minute 45 (not minute 5 again),
and the claim theorem yields 5 < 45. -/
theorem gps_crossing_first_within_and_end_after_start_witness :
    find_gps_crossing_times demoTrack (some demoStartD) (some demoEndD) 50 =
      some ⟨some 5, some 45⟩ ∧ (5 : ℚ) < 45 :=
  ⟨of_decide_eq_true (by with_unfolding_all rfl),
   (gps_crossing_first_within_and_end_after_start demoStartD demoStartD demoEndD
     demoTrack 50).2.2 ⟨some 5, some 45⟩ 5 45
     (of_decide_eq_true (by with_unfolding_all rfl)) rfl rfl⟩

theorem foldl_max_le_init : ∀ (xs : List ℚ) (b : ℚ), b ≤ xs.foldl max b := by
  intro xs
  induction xs with
  | nil => intro b; exact le_refl b
  | cons x xs ih =>
    intro b
    exact le_trans (le_max_left b x) (ih (max b x))

theorem mem_le_foldl_max : ∀ (xs : List ℚ) (b a : ℚ), a ∈ xs → a ≤ xs.foldl max b := by
  intro xs
  induction xs with
  | nil => intro b a h; exact absurd h (List.not_mem_nil a)
  | cons x xs ih =>
    intro b a h
    rcases List.mem_cons.mp h with h | h
    · rw [h]
      exact le_trans (le_max_right b x) (foldl_max_le_init xs (max b x))
    · exact ih (max b x) a h

theorem le_pandasMax (xs : List ℚ) (a : ℚ) (h : a ∈ xs) : a ≤ pandasMax xs := by
  rcases xs with _ | ⟨x, ys⟩
  · exact absurd h (List.not_mem_nil a)
  · rcases List.mem_cons.mp h with h | h
    · rw [h]
      exact foldl_max_le_init ys x
    · exact mem_le_foldl_max ys x a h

theorem pandasMax_pos_of_filter_hasBoth (merged : List MergedRow)
    (hne : merged.filter hasBoth ≠ []) :
    0 < pandasMax ((merged.filter hasBoth).filterMap MergedRow.cumulative_distance_km) ∧
    0 < pandasMax ((merged.filter hasBoth).filterMap MergedRow.steps_acc) := by
  rcases hl : merged.filter hasBoth with _ | ⟨r, rest⟩
  · exact absurd hl hne
  · have hr : r ∈ r :: rest := List.mem_cons_self r rest
    have hrb : hasBoth r = true := by
      have hrm : r ∈ merged.filter hasBoth := by
        rw [hl]
        exact hr
      exact (List.mem_filter.mp hrm).2
    unfold hasBoth at hrb
    simp only [Bool.and_eq_true] at hrb
    obtain ⟨⟨⟨hd1, hs1⟩, hd2⟩, hs2⟩ := hrb
    rcases hdv : r.cumulative_distance_km with _ | d
    · rw [hdv] at hd1
      cases hd1
    · rcases hsv : r.steps_acc with _ | v
      · rw [hsv] at hs1
        cases hs1
      · have hdpos : 0 < d := by
          unfold posOpt at hd2
          rw [hdv] at hd2
          exact of_decide_eq_true hd2
        have hspos : 0 < v := by
          unfold posOpt at hs2
          rw [hsv] at hs2
          exact of_decide_eq_true hs2
        constructor
        · have hmem : d ∈ (r :: rest).filterMap MergedRow.cumulative_distance_km :=
            List.mem_filterMap.mpr ⟨r, hr, hdv⟩
          exact lt_of_lt_of_le hdpos (le_pandasMax _ d hmem)
        · have hmem : v ∈ (r :: rest).filterMap MergedRow.steps_acc :=
            List.mem_filterMap.mpr ⟨r, hr, hsv⟩
          exact lt_of_lt_of_le hspos (le_pandasMax _ v hmem)

/-- Claim C8 (amended).  When some merged row has distance and
accelerometer steps both present AND POSITIVE, the stride length is the
maximal distance in meters over those rows divided by the maximal step
count over those rows; if it lies in the band 0.4 m to 1.5 m the estimation
pass rewrites exactly the rows with positive distance and missing step data
to steps = distance in meters divided by the stride, and if it lies outside
the band no row is modified.  The amendment relative to the written claim:
the maxima range over the rows where both values are present and positive,
not merely present. -/
theorem stride_estimation_fills_exactly_missing (merged : List MergedRow)
    (hne : merged.filter hasBoth ≠ []) :
    ((0.4 ≤ pandasMax ((merged.filter hasBoth).filterMap MergedRow.cumulative_distance_km)
          * 1000 / pandasMax ((merged.filter hasBoth).filterMap MergedRow.steps_acc) ∧
      pandasMax ((merged.filter hasBoth).filterMap MergedRow.cumulative_distance_km)
          * 1000 / pandasMax ((merged.filter hasBoth).filterMap MergedRow.steps_acc) ≤ 1.5) →
      _estimate_steps_from_distance merged =
        merged.map (fillEstimate
          (pandasMax ((merged.filter hasBoth).filterMap MergedRow.cumulative_distance_km)
            * 1000 /
           pandasMax ((merged.filter hasBoth).filterMap MergedRow.steps_acc)))) ∧
    (¬(0.4 ≤ pandasMax ((merged.filter hasBoth).filterMap MergedRow.cumulative_distance_km)
          * 1000 / pandasMax ((merged.filter hasBoth).filterMap MergedRow.steps_acc) ∧
       pandasMax ((merged.filter hasBoth).filterMap MergedRow.cumulative_distance_km)
          * 1000 / pandasMax ((merged.filter hasBoth).filterMap MergedRow.steps_acc) ≤ 1.5) →
      _estimate_steps_from_distance merged = merged) := by
  have hpos := pandasMax_pos_of_filter_hasBoth merged hne
  have hne' : (merged.filter hasBoth).isEmpty = false := by
    rcases hl : merged.filter hasBoth with _ | ⟨a, l⟩
    · exact absurd hl hne
    · rfl
  constructor
  · intro hband
    unfold _estimate_steps_from_distance
    dsimp only
    rw [hne']
    simp only [Bool.false_eq_true, if_false]
    rw [if_pos hpos, if_pos hband]
  · intro hband
    unfold _estimate_steps_from_distance
    dsimp only
    rw [hne']
    simp only [Bool.false_eq_true, if_false]
    rw [if_pos hpos, if_neg hband]

/-- Witness for C8: on the two demo rows the stride evaluates to 1 m
(in band) and the estimation pass rewrites exactly the row missing step
data. -/
theorem stride_estimation_fills_exactly_missing_witness :
    _estimate_steps_from_distance [mw1, mw2] = [mw1, mw2].map (fillEstimate 1) ∧
    [mw1, mw2].map (fillEstimate 1) = [mw1, { mw2 with steps := some 500 }] := by
  have hne : ([mw1, mw2] : List MergedRow).filter hasBoth ≠ [] := by
    have hev : ([mw1, mw2] : List MergedRow).filter hasBoth = [mw1] :=
      of_decide_eq_true (by with_unfolding_all rfl)
    rw [hev]
    intro hcon
    cases hcon
  have hstride : pandasMax ((([mw1, mw2] : List MergedRow).filter hasBoth).filterMap
        MergedRow.cumulative_distance_km) * 1000 /
      pandasMax ((([mw1, mw2] : List MergedRow).filter hasBoth).filterMap
        MergedRow.steps_acc) = 1 :=
    of_decide_eq_true (by with_unfolding_all rfl)
  have hband := (stride_estimation_fills_exactly_missing [mw1, mw2] hne).1
    (by rw [hstride]; norm_num)
  rw [hstride] at hband
  exact ⟨hband, of_decide_eq_true (by with_unfolding_all rfl)⟩

/-- Counterexample for C8 as written.  Row cr1 has distance and steps both
PRESENT (distance 1 km, step count 0), so the stride of the written claim
computes to 1000 m / 1000 = 1.0 m, inside the band, and the claim then
requires row cr3 (positive distance, missing steps) to be filled in.  The
code, whose mask also demands positivity, computes stride
150 m / 1000 = 0.15 m, outside the band, and modifies no row at all. -/
theorem stride_presence_only_reading_fails :
    _estimate_steps_from_distance [cr1, cr2, cr3] = [cr1, cr2, cr3] ∧
    specStrideBothPresent [cr1, cr2, cr3] = 1 ∧
    (0.4 ≤ specStrideBothPresent [cr1, cr2, cr3] ∧
      specStrideBothPresent [cr1, cr2, cr3] ≤ 1.5) ∧
    needsEstimation cr3 = true ∧ cr3.steps = none :=
  ⟨of_decide_eq_true (by with_unfolding_all rfl),
   of_decide_eq_true (by with_unfolding_all rfl),
   of_decide_eq_true (by with_unfolding_all rfl),
   of_decide_eq_true (by with_unfolding_all rfl),
   rfl⟩

theorem watchChannel_fillEstimate (stride : ℚ) (r : MergedRow) :
    watchChannel (fillEstimate stride r) = watchChannel r := by
  unfold fillEstimate
  split <;> rfl

theorem estimate_preserves_watchChannel (rows : List MergedRow) :
    (_estimate_steps_from_distance rows).map watchChannel = rows.map watchChannel := by
  unfold _estimate_steps_from_distance
  dsimp only
  split_ifs with h1 h2 h3
  · rfl
  · rw [List.map_map]
    apply List.map_congr_left
    intro r _
    exact watchChannel_fillEstimate _ r
  · rfl
  · rfl

theorem watchChannel_mergeRow (w : WatchRow) (m : Option StepRow) :
    watchChannel (mergeRow w m) = watchChannelW w := by
  unfold mergeRow watchToMerged
  cases m <;> rfl

/-- Claim C2.  The per-participant merge keeps every watch-derived row:
the merged frame has exactly as many rows as the watch frame, the multiset
of watch channels (timestamp, heart rate, cumulative distance) of the
output is a permutation of that of the input, and when the step side is
empty the watch rows are returned with all their columns (steps included)
unmodified. -/
theorem merge_preserves_all_watch_rows (tolerance : ℚ) (watch_group : List WatchRow)
    (step_group : List StepRow) :
    (merge_participant_data tolerance watch_group step_group).length =
      watch_group.length ∧
    ((merge_participant_data tolerance watch_group step_group).map watchChannel).Perm
      (watch_group.map watchChannelW) ∧
    (step_group = [] →
      (merge_participant_data tolerance watch_group step_group).map watchAll =
        watch_group.map watchAllW) := by
  have hchan : ((merge_participant_data tolerance watch_group step_group).map
      watchChannel).Perm (watch_group.map watchChannelW) := by
    unfold merge_participant_data
    by_cases hs : step_group.isEmpty
    · rw [if_pos hs, List.map_map]
      have hcomp : watchChannel ∘ watchToMerged = watchChannelW := rfl
      rw [hcomp]
    · rw [if_neg hs]
      dsimp only
      rw [List.map_map]
      have hdrop : watchChannel ∘ dropAccColumn = watchChannel := by
        funext r
        rfl
      rw [hdrop, estimate_preserves_watchChannel, List.map_map, List.map_map]
      have hstep : (watchChannel ∘ fillStepsFromAcc) ∘
          (fun w => mergeRow w (asofNearest (step_group.mergeSort stepTimeLe)
            w.time tolerance)) = watchChannelW := by
        funext w
        have h1 : ((watchChannel ∘ fillStepsFromAcc) ∘
            (fun w => mergeRow w (asofNearest (step_group.mergeSort stepTimeLe)
              w.time tolerance))) w =
            watchChannel (mergeRow w
              (asofNearest (step_group.mergeSort stepTimeLe) w.time tolerance)) := rfl
        rw [h1, watchChannel_mergeRow]
      rw [hstep]
      exact (List.mergeSort_perm watch_group watchTimeLe).map watchChannelW
  refine ⟨?_, hchan, ?_⟩
  · have hlen := hchan.length_eq
    rw [List.length_map, List.length_map] at hlen
    exact hlen
  · intro hemp
    unfold merge_participant_data
    rw [if_pos (by rw [hemp]; rfl), List.map_map]
    rfl

/-- Witness for C2: merging the ten-row demo watch timeline with an empty
step timeline keeps all ten rows with every column unmodified, and the
watch-channel multiset is preserved. -/
theorem merge_preserves_all_watch_rows_witness :
    (merge_participant_data 30 w10demo []).length = w10demo.length ∧
    ((merge_participant_data 30 w10demo []).map watchChannel).Perm
      (w10demo.map watchChannelW) ∧
    (merge_participant_data 30 w10demo []).map watchAll = w10demo.map watchAllW :=
  ⟨(merge_preserves_all_watch_rows 30 w10demo []).1,
   (merge_preserves_all_watch_rows 30 w10demo []).2.1,
   (merge_preserves_all_watch_rows 30 w10demo []).2.2 rfl⟩
